import Mathlib

/-!
Shallow embedding of `src/packages/sol-meta/src/contractMocker.ts` from the
0x-monorepo, together with models of the helper modules it imports
(`flattener.ts`, `constructor.ts`, `exposer.ts`, `stubber.ts`, `scripter.ts`,
`utils.ts`, `source_reader.ts`), which are not part of the provided sources and
are therefore modelled from the specification.

JavaScript objects used as string-keyed dictionaries are embedded as
association lists `List (String × α)`; the `in` operator and property indexing
become `hasKey` and `lookup`.  A JavaScript `throw` is embedded as the `error`
case of `Except MockError`; accessing a property of `undefined` (a `TypeError`)
is embedded as the distinguished error `MockError.typeErrorUndefined`.
-/

namespace ContractMocker

/-- Literal argument expressions (`utils.Litteral`); their structure is never
inspected by `contractMocker.ts`, so they are embedded as strings. -/
abbrev Litteral := String

/-- Script entries for scripted functions (`FunctionScript` from
`scripter.ts`); opaque to `contractMocker.ts`, embedded as strings. -/
abbrev FunctionScript := String

/-- A typed function parameter. -/
structure FunctionParameter where
  typeName : String
  paramName : String
deriving DecidableEq, Repr

/-- Bodies of function definitions.  The mocker only tests bodies for
presence/absence; the constructors record which synthesizer produced a body so
that synthesized members are distinguishable. -/
inductive FunctionBody where
  | emptyBlock : FunctionBody
  | constructorForward (args : List (String × List Litteral)) : FunctionBody
  | defaultReturn : FunctionBody
  | scriptedReturns (script : List FunctionScript) : FunctionBody
  | sourceBody (code : List String) : FunctionBody
deriving DecidableEq, Repr

/-- A function definition node (`S.FunctionDefinition`).  `name` is `none` for
unnamed (fallback) functions and for constructors; `body = none` marks the
function abstract. -/
structure FunctionDefinition where
  name : Option String
  isConstructor : Bool
  parameters : List FunctionParameter
  body : Option FunctionBody
  visibility : String
deriving DecidableEq, Repr

/-- A user-defined type name node, as produced by `utils.userType`. -/
structure UserDefinedTypeName where
  namePath : String
deriving DecidableEq, Repr

/-- An inheritance specifier (`S.InheritanceSpecifier`). -/
structure InheritanceSpecifier where
  baseName : UserDefinedTypeName
deriving DecidableEq, Repr

/-- Members of a contract (`ContractDefinition.subNodes`).  The mocker
discriminates function definitions from everything else via `node.type`. -/
inductive ContractMember where
  | functionDefinition (f : FunctionDefinition) : ContractMember
  | stateVariable (varName : String) (visibility : String) : ContractMember
  | otherMember (tag : String) : ContractMember
deriving DecidableEq, Repr

/-- A contract definition node (`S.ContractDefinition`). -/
structure ContractDefinition where
  name : String
  kind : String
  baseContracts : List InheritanceSpecifier
  subNodes : List ContractMember
deriving DecidableEq, Repr

/-- Top-level children of a source unit.  The mocker filters for pragma
directives and emits import directives and contract definitions. -/
inductive SourceMember where
  | pragmaDirective (pragmaName pragmaValue : String) : SourceMember
  | importDirective (path : String) (symbolAliases : Option (List (String × String))) : SourceMember
  | contractDefinition (c : ContractDefinition) : SourceMember
deriving DecidableEq, Repr

/-- A source unit node (`S.SourceUnit`). -/
structure SourceUnit where
  children : List SourceMember
deriving DecidableEq, Repr

/-- One entry of the source collection (`source_reader.ts`): the parsed tree,
the contracts defined in the file, and the name-resolution scope.  The scope
maps a contract name to its definition, since `mockContract` passes
`sourceInfo.scope[name]` directly to the resolve callback of the flattener. -/
structure SourceInfo where
  parsed : SourceUnit
  contracts : List (String × ContractDefinition)
  scope : List (String × ContractDefinition)
deriving DecidableEq, Repr

/-- The source catalog (`SourceCollection`): path → source info. -/
abbrev SourceCollection := List (String × SourceInfo)

/-- Caller options (`ContractMockOptions`). -/
structure ContractMockOptions where
  constructors : List (String × List Litteral)
  scripted : List (String × List FunctionScript)
deriving DecidableEq, Repr

/-- JavaScript property read `m[k]` on a string-keyed object. -/
def lookup {α : Type} (m : List (String × α)) (k : String) : Option α :=
  (m.find? (fun kv => kv.1 == k)).map (fun kv => kv.2)

/-- JavaScript `k in m` on a string-keyed object. -/
def hasKey {α : Type} (m : List (String × α)) (k : String) : Bool :=
  (lookup m k).isSome

/-- Modelled from the spec: `utils.objectFilter` (`utils.ts` is not under
`src/`): keeps the entries of an object whose key/value pair satisfies the
predicate, preserving entry order. -/
def objectFilter {α : Type} (m : List (String × α)) (p : String → α → Bool) :
    List (String × α) :=
  m.filter (fun kv => p kv.1 kv.2)

/-- Modelled from the spec: `utils.userType` (`utils.ts` is not under `src/`):
builds a user-defined type name node referencing the given contract name. -/
def userType (name : String) : UserDefinedTypeName :=
  { namePath := name }

/-- The errors `mockContract` can raise.  The first three form the documented
taxonomy; `typeErrorUndefined` embeds the JavaScript `TypeError` raised when a
property of `undefined` is accessed. -/
inductive MockError where
  | contractNotFound (contractName path : String) : MockError
  | scopeResolution (name path : String) : MockError
  | missingConstructorArgs (name contractName : String) : MockError
  | typeErrorUndefined : MockError
deriving DecidableEq, Repr

/-- `mockContractName` from `contractMocker.ts`: append the fixed suffix. -/
def mockContractName (contractName : String) : String :=
  contractName ++ "Mock"

/-- JavaScript truthiness of an optional string (`name &&`): `null` and the
empty string are falsy. -/
def nameTruthy : Option String → Bool
  | none => false
  | some s => !(s == "")

/-- JavaScript `func.name || ''`. -/
def getName (f : FunctionDefinition) : String :=
  f.name.getD ""

/-- The predicate of line 48 of `contractMocker.ts`: a subNode that is a
constructor function definition with at least one parameter. -/
def isArgConstructor : ContractMember → Bool
  | ContractMember.functionDefinition f =>
      f.isConstructor && decide (f.parameters.length > 0)
  | _ => false

/-- Lines 45 to 54: the names of parents that declare a constructor requiring
arguments. -/
def constructorsNeedingArgs (parents : List ContractDefinition) : List String :=
  (parents.filter (fun p => p.subNodes.any isArgConstructor)).map (fun p => p.name)

/-- Lines 65 to 67: the filter-and-cast extracting abstract (body-less)
function definitions from the flattened subNodes. -/
def asAbstractFunction : ContractMember → Option FunctionDefinition
  | ContractMember.functionDefinition f => if f.body.isNone then some f else none
  | _ => none

/-- Line 70: `abstracts.filter(({ name }) => name && name in options.scripted)`. -/
def classifyScripted (abstracts : List FunctionDefinition)
    (scripted : List (String × List FunctionScript)) : List FunctionDefinition :=
  abstracts.filter (fun f => nameTruthy f.name && hasKey scripted (getName f))

/-- Line 71: `abstracts.filter(({ name }) => name && !(name in options.scripted))`. -/
def classifyMocked (abstracts : List FunctionDefinition)
    (scripted : List (String × List FunctionScript)) : List FunctionDefinition :=
  abstracts.filter (fun f => nameTruthy f.name && !(hasKey scripted (getName f)))

/-- Modelled from the spec: `makeConstructor` (`constructor.ts` is not under
`src/`): emits one constructor declaration whose body explicitly calls each
listed ancestor constructor with the supplied literal arguments. -/
def makeConstructor (args : List (String × List Litteral)) : ContractMember :=
  ContractMember.functionDefinition
    { name := none
      isConstructor := true
      parameters := []
      body := some (FunctionBody.constructorForward args)
      visibility := "public" }

/-- Modelled from the spec: `exposeNode` (`exposer.ts` is not under `src/`):
for a member with restricted (internal) visibility, emits public wrapper
declarations exposing it for test access; otherwise emits nothing extra. -/
def exposeNode : ContractMember → List ContractMember
  | ContractMember.functionDefinition f =>
      if f.visibility == "internal" && !f.isConstructor && f.body.isSome then
        [ContractMember.functionDefinition
          { f with
            name := f.name.map (fun n => n ++ "Public")
            visibility := "public"
            body := some FunctionBody.emptyBlock }]
      else []
  | ContractMember.stateVariable n v =>
      if v == "internal" then [ContractMember.stateVariable (n ++ "Public") "public"]
      else []
  | ContractMember.otherMember _ => []

/-- Modelled from the spec: `scriptFunction` (`scripter.ts` is not under
`src/`): a concrete override returning the caller-supplied script values in
sequence. -/
def scriptFunction (f : FunctionDefinition) (script : List FunctionScript) :
    ContractMember :=
  ContractMember.functionDefinition
    { f with body := some (FunctionBody.scriptedReturns script) }

/-- Modelled from the spec: `stubFunction` (`stubber.ts` is not under `src/`):
a concrete override with a trivial default-valued body, preserving the
signature. -/
def stubFunction (f : FunctionDefinition) : List ContractMember :=
  [ContractMember.functionDefinition { f with body := some FunctionBody.defaultReturn }]

/-- Modelled from the spec: `nonAbstractForcer` (`constructor.ts` is not under
`src/`): a utility contract whose body attempts to instantiate the mock, so
that compilation fails if the mock contract is still abstract. -/
def nonAbstractForcer (mockName : String) : SourceMember :=
  SourceMember.contractDefinition
    { name := mockName ++ "NonAbstractForcer"
      kind := "contract"
      baseContracts := []
      subNodes :=
        [ContractMember.functionDefinition
          { name := none
            isConstructor := true
            parameters := []
            body := some (FunctionBody.sourceBody ["new " ++ mockName ++ "()"])
            visibility := "public" }] }

/-- The name-resolution callback built at lines 35 to 41: look the name up in
the scope of the file, failing with a scope-resolution error when absent. -/
def mkResolve (si : SourceInfo) (path : String) :
    String → Except MockError ContractDefinition :=
  fun name =>
    match lookup si.scope name with
    | none => Except.error (MockError.scopeResolution name path)
    | some decl => Except.ok decl

/-- The names of the base contracts of a declaration. -/
def baseNames (c : ContractDefinition) : List String :=
  c.baseContracts.map (fun b => b.baseName.namePath)

/-- The name of a member, used for override resolution during flattening. -/
def memberName : ContractMember → Option String
  | ContractMember.functionDefinition f => f.name
  | ContractMember.stateVariable n _ => some n
  | ContractMember.otherMember _ => none

/-- Modelled from the spec: the duplicate-by-name merge of the flattener
(`flattener.ts` is not under `src/`): with derived members first, keep the
first (most-derived) occurrence of each name; unnamed members are always
kept. -/
def dedupMembers : List ContractMember → List String → List ContractMember
  | [], _ => []
  | m :: ms, seen =>
      match memberName m with
      | some n =>
          if seen.contains n then dedupMembers ms seen
          else m :: dedupMembers ms (n :: seen)
      | none => m :: dedupMembers ms seen

/-- Modelled from the spec: the traversal of the flattener (`flattener.ts` is
not under `src/`): walk the worklist of base-contract names, resolving each
unvisited name, recursively enqueueing its own bases, and accumulating the
ordered list of ancestor declarations visited.  A memoized visited set skips
revisited names; the fuel argument guards against malformed cycles. -/
def flattenParents (resolve : String → Except MockError ContractDefinition) :
    Nat → List String → List String →
    Except MockError (List ContractDefinition × List String)
  | 0, _, visited => Except.ok ([], visited)
  | _ + 1, [], visited => Except.ok ([], visited)
  | fuel + 1, name :: rest, visited =>
      if visited.contains name then flattenParents resolve fuel rest visited
      else
        match resolve name with
        | Except.error e => Except.error e
        | Except.ok decl =>
            match flattenParents resolve fuel (baseNames decl) (name :: visited) with
            | Except.error e => Except.error e
            | Except.ok (ps1, v1) =>
                match flattenParents resolve fuel rest v1 with
                | Except.error e => Except.error e
                | Except.ok (ps2, v2) => Except.ok (decl :: (ps1 ++ ps2), v2)

/-- A generous fuel bound for the inheritance walk: every worklist element ever
enqueued comes either from the base list of the target or from the base list of
a declaration in the scope, so this bound exceeds the traversal depth for every
acyclic (and every well-scoped) input. -/
def flattenFuel (c : ContractDefinition) (si : SourceInfo) : Nat :=
  c.baseContracts.length +
    si.scope.foldl (fun acc kv => acc + kv.2.baseContracts.length) 0 +
    si.scope.length + 2

/-- Whether a member is a constructor declaration; constructor declarations
are kept out of the merged member list since they are invoked individually
from the parents list. -/
def isConstructorMember : ContractMember → Bool
  | ContractMember.functionDefinition f => f.isConstructor
  | _ => false

/-- Modelled from the spec: `flattenContract` (`flattener.ts` is not under
`src/`): returns the merged declaration and the ordered proper ancestors.  The
merged subNodes put the own members of the target first, then the ancestor
non-constructor members in traversal order, with most-derived occurrences kept
on name clashes. -/
def flattenContract (c : ContractDefinition)
    (resolve : String → Except MockError ContractDefinition) (fuel : Nat) :
    Except MockError (ContractDefinition × List ContractDefinition) :=
  match flattenParents resolve fuel (baseNames c) [c.name] with
  | Except.error e => Except.error e
  | Except.ok (parents, _) =>
      Except.ok
        ({ c with
            subNodes :=
              dedupMembers
                (c.subNodes ++
                  parents.flatMap (fun p =>
                    p.subNodes.filter (fun m => !(isConstructorMember m))))
                [] },
          parents)

/-- Lines 74 to 99: the mock contract definition assembled from the classified
groups. -/
def buildMock (contractName : String) (options : ContractMockOptions)
    (ctorNames : List String) (flat : ContractDefinition) : ContractDefinition :=
  let abstracts := flat.subNodes.filterMap asAbstractFunction
  let scripted := classifyScripted abstracts options.scripted
  let mocked := classifyMocked abstracts options.scripted
  { name := mockContractName contractName
    kind := "contract"
    baseContracts := [{ baseName := userType contractName }]
    subNodes :=
      makeConstructor (objectFilter options.constructors (fun key _ => ctorNames.contains key))
        :: (flat.subNodes.flatMap exposeNode
          ++ scripted.map (fun func =>
              scriptFunction func ((lookup options.scripted (getName func)).getD []))
          ++ mocked.flatMap stubFunction) }

/-- The filter of line 106: keep only pragma directives. -/
def isPragma : SourceMember → Bool
  | SourceMember.pragmaDirective _ _ => true
  | _ => false

/-- Lines 102 to 122: the output source unit wrapping the mock contract. -/
def assembleUnit (si : SourceInfo) (path contractName : String)
    (mock : ContractDefinition) : SourceUnit :=
  { children :=
      si.parsed.children.filter isPragma
        ++ [SourceMember.importDirective path none,
            SourceMember.contractDefinition mock,
            nonAbstractForcer (mockContractName contractName)] }

/-- `mockContract` from `contractMocker.ts`, lines 23 to 123.  When `path` is
absent from the collection, `sources[path]` is `undefined` in JavaScript and
the subsequent `sourceInfo.contracts` access throws a `TypeError` before any
validation, embedded as `typeErrorUndefined`. -/
def mockContract (sources : SourceCollection) (path contractName : String)
    (options : ContractMockOptions) : Except MockError SourceUnit :=
  match lookup sources path with
  | none => Except.error MockError.typeErrorUndefined
  | some si =>
      match lookup si.contracts contractName with
      | none => Except.error (MockError.contractNotFound contractName path)
      | some target =>
          match flattenContract target (mkResolve si path) (flattenFuel target si) with
          | Except.error e => Except.error e
          | Except.ok (flat, parents) =>
              match (constructorsNeedingArgs parents).find?
                  (fun n => !(hasKey options.constructors n)) with
              | some n => Except.error (MockError.missingConstructorArgs n contractName)
              | none =>
                  Except.ok (assembleUnit si path contractName
                    (buildMock contractName options (constructorsNeedingArgs parents) flat))

/-! ### Concrete fixtures

The scenario of §8 of the specification: `Token` inherits `Ownable` (whose
constructor takes one address argument) and declares one abstract function
`rate`. -/

/-- The `Ownable` ancestor: a one-parameter constructor and an internal state
variable. -/
def ownableDef : ContractDefinition :=
  { name := "Ownable"
    kind := "contract"
    baseContracts := []
    subNodes :=
      [ContractMember.functionDefinition
        { name := none
          isConstructor := true
          parameters := [{ typeName := "address", paramName := "owner" }]
          body := some FunctionBody.emptyBlock
          visibility := "public" },
       ContractMember.stateVariable "owner" "internal"] }

/-- The abstract function `rate`. -/
def rateFn : FunctionDefinition :=
  { name := some "rate"
    isConstructor := false
    parameters := []
    body := none
    visibility := "public" }

/-- An unnamed (fallback) abstract function. -/
def fallbackFn : FunctionDefinition :=
  { name := none
    isConstructor := false
    parameters := []
    body := none
    visibility := "external" }

/-- The target contract `Token`, inheriting `Ownable`. -/
def tokenDef : ContractDefinition :=
  { name := "Token"
    kind := "contract"
    baseContracts := [{ baseName := { namePath := "Ownable" } }]
    subNodes := [ContractMember.functionDefinition rateFn] }

/-- The parsed source unit of `Token.sol`. -/
def tokenUnit : SourceUnit :=
  { children :=
      [SourceMember.pragmaDirective "solidity" "^0.4.24",
       SourceMember.contractDefinition tokenDef] }

/-- The catalog entry for `Token.sol`. -/
def tokenInfo : SourceInfo :=
  { parsed := tokenUnit
    contracts := [("Token", tokenDef), ("Ownable", ownableDef)]
    scope := [("Token", tokenDef), ("Ownable", ownableDef)] }

/-- A one-file source catalog. -/
def demoSources : SourceCollection := [("Token.sol", tokenInfo)]

/-- Options supplying the `Ownable` constructor argument and a script for
`rate`. -/
def demoOptions : ContractMockOptions :=
  { constructors := [("Ownable", ["0x01"])]
    scripted := [("rate", ["5", "7"])] }

/-- A catalog entry whose scope is missing the `Ownable` base. -/
def tokenInfoNoScope : SourceInfo :=
  { parsed := tokenUnit
    contracts := [("Token", tokenDef)]
    scope := [("Token", tokenDef)] }

/-- The successful output of `mockContract` on the demo fixture. -/
def demoUnit : SourceUnit :=
  ((mockContract demoSources "Token.sol" "Token" demoOptions).toOption).getD
    { children := [] }

/-- A catalog whose only entry lacks `Ownable` in its scope. -/
def noScopeSources : SourceCollection := [("Token.sol", tokenInfoNoScope)]

/-- Options supplying neither constructor arguments nor scripts. -/
def emptyOptions : ContractMockOptions := { constructors := [], scripted := [] }

/-- The flattened `Token` declaration of the demo fixture. -/
def demoFlat : ContractDefinition :=
  ((flattenContract tokenDef (mkResolve tokenInfo "Token.sol")
      (flattenFuel tokenDef tokenInfo)).toOption.getD (tokenDef, [])).1

/-- The ancestor list of the demo fixture. -/
def demoParents : List ContractDefinition :=
  ((flattenContract tokenDef (mkResolve tokenInfo "Token.sol")
      (flattenFuel tokenDef tokenInfo)).toOption.getD (tokenDef, [])).2

/-- Whether a result is one of the three documented taxonomy errors
(contract-not-found, scope-resolution, missing-constructor-args). -/
def isTaxonomyError : Except MockError SourceUnit → Bool
  | Except.error (MockError.contractNotFound _ _) => true
  | Except.error (MockError.scopeResolution _ _) => true
  | Except.error (MockError.missingConstructorArgs _ _) => true
  | _ => false

/-- Whether a result returns a source unit. -/
def isOkUnit : Except MockError SourceUnit → Bool
  | Except.ok _ => true
  | _ => false

/-! ### Helper lemmas -/

/-- Membership in `constructorsNeedingArgs` is exactly being the name of a
parent that declares a constructor with at least one parameter. -/
theorem mem_constructorsNeedingArgs {parents : List ContractDefinition} {n : String} :
    n ∈ constructorsNeedingArgs parents ↔
      ∃ p, p ∈ parents ∧ p.name = n ∧ p.subNodes.any isArgConstructor = true := by
  constructor
  · intro h
    obtain ⟨p, hp, hn⟩ := List.mem_map.mp h
    exact ⟨p, (List.mem_filter.mp hp).1, hn, (List.mem_filter.mp hp).2⟩
  · rintro ⟨p, hp, hn, ha⟩
    exact List.mem_map.mpr ⟨p, List.mem_filter.mpr ⟨hp, ha⟩, hn⟩

/-- Every error produced by the flattening traversal originates from a failed
call of the resolve callback. -/
theorem flattenParents_error {resolve : String → Except MockError ContractDefinition} :
    ∀ (fuel : Nat) (names visited : List String) (e : MockError),
      flattenParents resolve fuel names visited = Except.error e →
      ∃ n, resolve n = Except.error e := by
  intro fuel
  induction fuel with
  | zero =>
      intro names visited e h
      simp [flattenParents] at h
  | succ fuel ih =>
      intro names visited e h
      cases names with
      | nil => simp [flattenParents] at h
      | cons name rest =>
          rw [flattenParents] at h
          split at h
          · exact ih rest visited e h
          · split at h
            case _ e' hres =>
                refine ⟨name, ?_⟩
                injection h with h
                rw [← h]
                exact hres
            case _ decl hres =>
                split at h
                case _ e' hrec =>
                    injection h with h
                    subst h
                    exact ih _ _ _ hrec
                case _ ps1 v1 hrec =>
                    split at h
                    case _ e' hrec2 =>
                        injection h with h
                        subst h
                        exact ih _ _ _ hrec2
                    case _ ps2 v2 hrec2 =>
                        exact absurd h (by simp)

/-- Every error of `flattenContract` originates from the resolve callback. -/
theorem flattenContract_error {c : ContractDefinition}
    {resolve : String → Except MockError ContractDefinition} {fuel : Nat} {e : MockError}
    (h : flattenContract c resolve fuel = Except.error e) :
    ∃ n, resolve n = Except.error e := by
  rw [flattenContract] at h
  split at h
  case _ e' hp =>
      injection h with h
      subst h
      exact flattenParents_error _ _ _ _ hp
  case _ parents v hp =>
      exact absurd h (by simp)

/-- The resolve callback of `mockContract` fails exactly on names absent from
the scope of the file, and then with a scope-resolution error naming them. -/
theorem mkResolve_error {si : SourceInfo} {path n : String} {e : MockError}
    (h : mkResolve si path n = Except.error e) :
    lookup si.scope n = none ∧ e = MockError.scopeResolution n path := by
  rw [mkResolve] at h
  split at h
  case _ hl =>
      refine ⟨hl, ?_⟩
      injection h with h
      exact h.symm
  case _ decl hl =>
      exact absurd h (by simp)

/-- `List.contains` on strings agrees with membership. -/
theorem contains_iff_mem {l : List String} {a : String} :
    l.contains a = true ↔ a ∈ l := by
  simp [List.contains_iff_exists_mem_beq]

/-- Inversion of a successful run of `mockContract`: every stage succeeded and
the output is the assembled unit around the built mock. -/
theorem mockContract_ok_inv {sources : SourceCollection} {path contractName : String}
    {options : ContractMockOptions} {u : SourceUnit}
    (h : mockContract sources path contractName options = Except.ok u) :
    ∃ si target flat parents,
      lookup sources path = some si ∧
      lookup si.contracts contractName = some target ∧
      flattenContract target (mkResolve si path) (flattenFuel target si) =
        Except.ok (flat, parents) ∧
      (constructorsNeedingArgs parents).find?
        (fun n => !(hasKey options.constructors n)) = none ∧
      u = assembleUnit si path contractName
            (buildMock contractName options (constructorsNeedingArgs parents) flat) := by
  rw [mockContract] at h
  split at h
  · exact absurd h (by simp)
  case _ si hsi =>
      split at h
      · exact absurd h (by simp)
      case _ target htarget =>
          split at h
          · exact absurd h (by simp)
          case _ flat parents hflat =>
              split at h
              · exact absurd h (by simp)
              case _ hfind =>
                  refine ⟨si, target, flat, parents, hsi, htarget, hflat, hfind, ?_⟩
                  injection h with h
                  exact h.symm

/-! ### Claim theorems -/

/-- C1 counterexample: `fallbackFn` is an unnamed abstract (body-less)
function, belonging to the input list of the classifier, yet the classifier places
it in neither the scripted nor the mocked partition — refuting the claim that
every unnamed abstract function is placed in `mocked` and that no abstract
function is left out of both partitions. -/
theorem classify_unnamed_left_out :
    fallbackFn.body = none ∧
    fallbackFn ∈ [fallbackFn] ∧
    fallbackFn ∉ classifyScripted [fallbackFn] demoOptions.scripted ∧
    fallbackFn ∉ classifyMocked [fallbackFn] demoOptions.scripted := by
  decide

/-- C1 (amended): every abstract function with a truthy (present, non-empty)
name is placed in exactly one partition — in `scripted` iff its name is a key
of `options.scripted`, otherwise in `mocked` — while an unnamed
(fallback/receive) abstract function is placed in neither partition. -/
theorem classify_partition (abstracts : List FunctionDefinition)
    (scr : List (String × List FunctionScript)) (f : FunctionDefinition)
    (hf : f ∈ abstracts) :
    (nameTruthy f.name = true →
      ((f ∈ classifyScripted abstracts scr ↔ hasKey scr (getName f) = true) ∧
       (f ∈ classifyMocked abstracts scr ↔ hasKey scr (getName f) = false))) ∧
    (nameTruthy f.name = false →
      (f ∉ classifyScripted abstracts scr ∧ f ∉ classifyMocked abstracts scr)) := by
  constructor
  · intro ht
    constructor
    · rw [classifyScripted, List.mem_filter]
      simp [hf, ht]
    · rw [classifyMocked, List.mem_filter]
      simp [hf, ht]
  · intro hfls
    constructor
    · rw [classifyScripted, List.mem_filter]
      simp [hfls]
    · rw [classifyMocked, List.mem_filter]
      simp [hfls]

/-- Witness for the amended C1 at the named abstract function `rate`. -/
theorem classify_partition_witness :
    (nameTruthy rateFn.name = true →
      ((rateFn ∈ classifyScripted [rateFn] demoOptions.scripted ↔
          hasKey demoOptions.scripted (getName rateFn) = true) ∧
       (rateFn ∈ classifyMocked [rateFn] demoOptions.scripted ↔
          hasKey demoOptions.scripted (getName rateFn) = false))) ∧
    (nameTruthy rateFn.name = false →
      (rateFn ∉ classifyScripted [rateFn] demoOptions.scripted ∧
       rateFn ∉ classifyMocked [rateFn] demoOptions.scripted)) :=
  classify_partition [rateFn] demoOptions.scripted rateFn (by decide)

/-- C3: when the requested contract name is not a key of the contracts mapping
of the catalog entry at the path, `mockContract` fails with a
contract-not-found error identifying the name and the path, and no output
source unit is constructed. -/
theorem mockContract_contract_not_found
    {sources : SourceCollection} {path contractName : String}
    {options : ContractMockOptions} {si : SourceInfo}
    (h1 : lookup sources path = some si)
    (h2 : lookup si.contracts contractName = none) :
    mockContract sources path contractName options =
      Except.error (MockError.contractNotFound contractName path) ∧
    isOkUnit (mockContract sources path contractName options) = false := by
  have hm : mockContract sources path contractName options =
      Except.error (MockError.contractNotFound contractName path) := by
    simp only [mockContract, h1, h2]
  exact ⟨hm, by rw [hm]; rfl⟩

/-- Witness for C3: requesting the absent contract `Nope` from `Token.sol`. -/
theorem mockContract_contract_not_found_witness :
    mockContract demoSources "Token.sol" "Nope" demoOptions =
      Except.error (MockError.contractNotFound "Nope" "Token.sol") ∧
    isOkUnit (mockContract demoSources "Token.sol" "Nope" demoOptions) = false :=
  mockContract_contract_not_found (by rfl) (by rfl)

/-- C9: `mockContract` is deterministic — structurally equal inputs give
structurally equal outputs — and in particular re-running the classification
with equal scripted mappings yields identical scripted and mocked
partitions. -/
theorem mockContract_deterministic
    {s1 s2 : SourceCollection} {p1 p2 c1 c2 : String}
    {o1 o2 : ContractMockOptions} {abstracts : List FunctionDefinition}
    {scr1 scr2 : List (String × List FunctionScript)}
    (hs : s1 = s2) (hp : p1 = p2) (hc : c1 = c2) (ho : o1 = o2)
    (hscr : scr1 = scr2) :
    mockContract s1 p1 c1 o1 = mockContract s2 p2 c2 o2 ∧
    classifyScripted abstracts scr1 = classifyScripted abstracts scr2 ∧
    classifyMocked abstracts scr1 = classifyMocked abstracts scr2 := by
  subst hs
  subst hp
  subst hc
  subst ho
  subst hscr
  exact ⟨rfl, rfl, rfl⟩

/-- Witness for C9 at the demo input. -/
theorem mockContract_deterministic_witness :
    mockContract demoSources "Token.sol" "Token" demoOptions =
      mockContract demoSources "Token.sol" "Token" demoOptions ∧
    classifyScripted [rateFn] demoOptions.scripted =
      classifyScripted [rateFn] demoOptions.scripted ∧
    classifyMocked [rateFn] demoOptions.scripted =
      classifyMocked [rateFn] demoOptions.scripted :=
  mockContract_deterministic rfl rfl rfl rfl rfl

/-- C10: when the path is not a key of the sources catalog, `mockContract`
fails from the property access on the undefined catalog entry — embedded as
`typeErrorUndefined` — before any validation: it returns no source unit and
raises none of the three documented taxonomy errors. -/
theorem mockContract_missing_path
    {sources : SourceCollection} {path contractName : String}
    {options : ContractMockOptions}
    (h : lookup sources path = none) :
    mockContract sources path contractName options =
      Except.error MockError.typeErrorUndefined ∧
    isTaxonomyError (mockContract sources path contractName options) = false ∧
    isOkUnit (mockContract sources path contractName options) = false := by
  have hm : mockContract sources path contractName options =
      Except.error MockError.typeErrorUndefined := by
    simp only [mockContract, h]
  exact ⟨hm, by rw [hm]; rfl, by rw [hm]; rfl⟩

/-- Witness for C10: a path absent from the demo catalog. -/
theorem mockContract_missing_path_witness :
    mockContract demoSources "Missing.sol" "Token" demoOptions =
      Except.error MockError.typeErrorUndefined ∧
    isTaxonomyError (mockContract demoSources "Missing.sol" "Token" demoOptions) = false ∧
    isOkUnit (mockContract demoSources "Missing.sol" "Token" demoOptions) = false :=
  mockContract_missing_path (by rfl)

/-- C2: if some parent in the flattened hierarchy declares a constructor with
at least one parameter and `options.constructors` lacks the name of that parent,
`mockContract` fails with a missing-constructor-args error naming such a
parent and the target contract, before any synthesis; and when every parent
needing arguments has an entry, no error is raised and the run succeeds. -/
theorem mockContract_missing_ctor_validation
    {sources : SourceCollection} {path contractName : String}
    {options : ContractMockOptions} {si : SourceInfo}
    {target flat : ContractDefinition} {parents : List ContractDefinition}
    (h1 : lookup sources path = some si)
    (h2 : lookup si.contracts contractName = some target)
    (h3 : flattenContract target (mkResolve si path) (flattenFuel target si) =
      Except.ok (flat, parents)) :
    ((∃ p, p ∈ parents ∧ p.subNodes.any isArgConstructor = true ∧
        hasKey options.constructors p.name = false) →
      ∃ n, (∃ p, p ∈ parents ∧ p.name = n ∧ p.subNodes.any isArgConstructor = true) ∧
        hasKey options.constructors n = false ∧
        mockContract sources path contractName options =
          Except.error (MockError.missingConstructorArgs n contractName)) ∧
    ((∀ p, p ∈ parents → p.subNodes.any isArgConstructor = true →
        hasKey options.constructors p.name = true) →
      isOkUnit (mockContract sources path contractName options) = true) := by
  constructor
  · rintro ⟨p, hp, ha, hk⟩
    have hmem : p.name ∈ constructorsNeedingArgs parents :=
      mem_constructorsNeedingArgs.mpr ⟨p, hp, rfl, ha⟩
    have hsome : ((constructorsNeedingArgs parents).find?
        (fun n => !(hasKey options.constructors n))).isSome := by
      rw [List.find?_isSome]
      exact ⟨p.name, hmem, by rw [hk]; rfl⟩
    obtain ⟨n, hn⟩ := Option.isSome_iff_exists.mp hsome
    have hpred := List.find?_some hn
    have hnmem : n ∈ constructorsNeedingArgs parents := List.mem_of_find?_eq_some hn
    simp only [Bool.not_eq_true'] at hpred
    refine ⟨n, mem_constructorsNeedingArgs.mp hnmem, hpred, ?_⟩
    simp only [mockContract, h1, h2, h3, hn]
  · intro hall
    have hnone : (constructorsNeedingArgs parents).find?
        (fun n => !(hasKey options.constructors n)) = none := by
      rw [List.find?_eq_none]
      intro n hn
      obtain ⟨p, hp, hpn, hpa⟩ := mem_constructorsNeedingArgs.mp hn
      have := hall p hp hpa
      rw [hpn] at this
      simp [this]
    simp only [mockContract, h1, h2, h3, hnone]
    rfl

/-- Witness for C2: the demo fixture with empty options, where `Ownable`
requires one constructor argument but no entry is supplied. -/
theorem mockContract_missing_ctor_validation_witness :
    ((∃ p, p ∈ demoParents ∧ p.subNodes.any isArgConstructor = true ∧
        hasKey emptyOptions.constructors p.name = false) →
      ∃ n, (∃ p, p ∈ demoParents ∧ p.name = n ∧
          p.subNodes.any isArgConstructor = true) ∧
        hasKey emptyOptions.constructors n = false ∧
        mockContract demoSources "Token.sol" "Token" emptyOptions =
          Except.error (MockError.missingConstructorArgs n "Token")) ∧
    ((∀ p, p ∈ demoParents → p.subNodes.any isArgConstructor = true →
        hasKey emptyOptions.constructors p.name = true) →
      isOkUnit (mockContract demoSources "Token.sol" "Token" emptyOptions) = true) :=
  mockContract_missing_ctor_validation (by rfl) (by rfl) (by rfl)

/-- C4: whenever the flattening stage fails, the error is a scope-resolution
error for a base-contract name absent from the scope mapping of the file, naming
the missing name and the path, and the whole `mockContract` call fails with
exactly that error and no partial output. -/
theorem mockContract_scope_error
    {sources : SourceCollection} {path contractName : String}
    {options : ContractMockOptions} {si : SourceInfo}
    {target : ContractDefinition} {e : MockError}
    (h1 : lookup sources path = some si)
    (h2 : lookup si.contracts contractName = some target)
    (h3 : flattenContract target (mkResolve si path) (flattenFuel target si) =
      Except.error e) :
    (∃ name, lookup si.scope name = none ∧
      e = MockError.scopeResolution name path) ∧
    mockContract sources path contractName options = Except.error e ∧
    isOkUnit (mockContract sources path contractName options) = false := by
  obtain ⟨n, hn⟩ := flattenContract_error h3
  obtain ⟨hl, he⟩ := mkResolve_error hn
  have hm : mockContract sources path contractName options = Except.error e := by
    simp only [mockContract, h1, h2, h3]
  exact ⟨⟨n, hl, he⟩, hm, by rw [hm]; rfl⟩

/-- Witness for C4: the catalog whose scope lacks the `Ownable` base. -/
theorem mockContract_scope_error_witness :
    (∃ name, lookup tokenInfoNoScope.scope name = none ∧
      MockError.scopeResolution "Ownable" "Token.sol" =
        MockError.scopeResolution name "Token.sol") ∧
    mockContract noScopeSources "Token.sol" "Token" demoOptions =
      Except.error (MockError.scopeResolution "Ownable" "Token.sol") ∧
    isOkUnit (mockContract noScopeSources "Token.sol" "Token" demoOptions) = false :=
  mockContract_scope_error (by rfl) (by rfl) (by rfl)

/-- C5: for every successful call, the subNodes of the produced mock contract are
ordered exactly as: the single forwarding constructor first, then the exposed
members in the original member order of the flattened contract, then the scripted
overrides in classification order, then the stubs in classification order. -/
theorem mock_subnodes_order
    {sources : SourceCollection} {path contractName : String}
    {options : ContractMockOptions} {u : SourceUnit}
    (h : mockContract sources path contractName options = Except.ok u) :
    ∃ si target flat parents mock,
      lookup sources path = some si ∧
      lookup si.contracts contractName = some target ∧
      flattenContract target (mkResolve si path) (flattenFuel target si) =
        Except.ok (flat, parents) ∧
      SourceMember.contractDefinition mock ∈ u.children ∧
      mock.subNodes =
        makeConstructor (objectFilter options.constructors
            (fun key _ => (constructorsNeedingArgs parents).contains key))
          :: (flat.subNodes.flatMap exposeNode
            ++ (classifyScripted (flat.subNodes.filterMap asAbstractFunction)
                  options.scripted).map (fun func =>
                    scriptFunction func
                      ((lookup options.scripted (getName func)).getD []))
            ++ (classifyMocked (flat.subNodes.filterMap asAbstractFunction)
                  options.scripted).flatMap stubFunction) := by
  obtain ⟨si, target, flat, parents, h1, h2, h3, h4, h5⟩ := mockContract_ok_inv h
  refine ⟨si, target, flat, parents,
    buildMock contractName options (constructorsNeedingArgs parents) flat,
    h1, h2, h3, ?_, rfl⟩
  rw [h5]
  simp [assembleUnit]

/-- Witness for C5 at the demo fixture. -/
theorem mock_subnodes_order_witness :
    ∃ si target flat parents mock,
      lookup demoSources "Token.sol" = some si ∧
      lookup si.contracts "Token" = some target ∧
      flattenContract target (mkResolve si "Token.sol") (flattenFuel target si) =
        Except.ok (flat, parents) ∧
      SourceMember.contractDefinition mock ∈ demoUnit.children ∧
      mock.subNodes =
        makeConstructor (objectFilter demoOptions.constructors
            (fun key _ => (constructorsNeedingArgs parents).contains key))
          :: (flat.subNodes.flatMap exposeNode
            ++ (classifyScripted (flat.subNodes.filterMap asAbstractFunction)
                  demoOptions.scripted).map (fun func =>
                    scriptFunction func
                      ((lookup demoOptions.scripted (getName func)).getD []))
            ++ (classifyMocked (flat.subNodes.filterMap asAbstractFunction)
                  demoOptions.scripted).flatMap stubFunction) :=
  mock_subnodes_order (by rfl)

/-- C6: for every successful call, the produced mock contract is named by
appending the fixed suffix to the original contract name, and its
baseContracts list contains exactly one entry, referencing only the original
target contract. -/
theorem mock_name_and_base
    {sources : SourceCollection} {path contractName : String}
    {options : ContractMockOptions} {u : SourceUnit}
    (h : mockContract sources path contractName options = Except.ok u) :
    ∃ mock, SourceMember.contractDefinition mock ∈ u.children ∧
      mock.name = mockContractName contractName ∧
      mockContractName contractName = contractName ++ "Mock" ∧
      mock.baseContracts = [{ baseName := { namePath := contractName } }] := by
  obtain ⟨si, target, flat, parents, h1, h2, h3, h4, h5⟩ := mockContract_ok_inv h
  refine ⟨buildMock contractName options (constructorsNeedingArgs parents) flat,
    ?_, rfl, rfl, rfl⟩
  rw [h5]
  simp [assembleUnit]

/-- Witness for C6 at the demo fixture. -/
theorem mock_name_and_base_witness :
    ∃ mock, SourceMember.contractDefinition mock ∈ demoUnit.children ∧
      mock.name = mockContractName "Token" ∧
      mockContractName "Token" = "Token" ++ "Mock" ∧
      mock.baseContracts = [{ baseName := { namePath := "Token" } }] :=
  @mock_name_and_base demoSources "Token.sol" "Token" demoOptions demoUnit (by rfl)

/-- C7: for every successful call, the children of the returned source unit are, in
order: the pragma directives of the original parsed file (copied verbatim with
relative order preserved by the filter), then exactly one import directive
whose path is the original file path, then the mock contract declaration, then
exactly one non-abstract-forcer utility declaration, and nothing else. -/
theorem unit_children_layout
    {sources : SourceCollection} {path contractName : String}
    {options : ContractMockOptions} {u : SourceUnit}
    (h : mockContract sources path contractName options = Except.ok u) :
    ∃ si mock,
      lookup sources path = some si ∧
      u.children =
        si.parsed.children.filter isPragma
          ++ [SourceMember.importDirective path none,
              SourceMember.contractDefinition mock,
              nonAbstractForcer (mockContractName contractName)] := by
  obtain ⟨si, target, flat, parents, h1, h2, h3, h4, h5⟩ := mockContract_ok_inv h
  refine ⟨si, buildMock contractName options (constructorsNeedingArgs parents) flat,
    h1, ?_⟩
  rw [h5]
  rfl

/-- Witness for C7 at the demo fixture. -/
theorem unit_children_layout_witness :
    ∃ si mock,
      lookup demoSources "Token.sol" = some si ∧
      demoUnit.children =
        si.parsed.children.filter isPragma
          ++ [SourceMember.importDirective "Token.sol" none,
              SourceMember.contractDefinition mock,
              nonAbstractForcer (mockContractName "Token")] :=
  @unit_children_layout demoSources "Token.sol" "Token" demoOptions demoUnit (by rfl)

/-- C8: for every successful call, the constructor-argument mapping handed to
the constructor forwarder contains exactly the entries of
`options.constructors` whose keys name a parent that declares a constructor
with at least one parameter; entries for parents with zero-argument
constructors and entries naming contracts outside the hierarchy are filtered
out. -/
theorem ctor_args_filtering
    {sources : SourceCollection} {path contractName : String}
    {options : ContractMockOptions} {u : SourceUnit}
    (h : mockContract sources path contractName options = Except.ok u) :
    ∃ si target flat parents mock,
      lookup sources path = some si ∧
      lookup si.contracts contractName = some target ∧
      flattenContract target (mkResolve si path) (flattenFuel target si) =
        Except.ok (flat, parents) ∧
      SourceMember.contractDefinition mock ∈ u.children ∧
      mock.subNodes.head? = some (makeConstructor (objectFilter
        options.constructors
        (fun key _ => (constructorsNeedingArgs parents).contains key))) ∧
      (∀ k v, ((k, v) ∈ objectFilter options.constructors
          (fun key _ => (constructorsNeedingArgs parents).contains key)) ↔
        ((k, v) ∈ options.constructors ∧
          ∃ p, p ∈ parents ∧ p.name = k ∧
            p.subNodes.any isArgConstructor = true)) := by
  obtain ⟨si, target, flat, parents, h1, h2, h3, h4, h5⟩ := mockContract_ok_inv h
  refine ⟨si, target, flat, parents,
    buildMock contractName options (constructorsNeedingArgs parents) flat,
    h1, h2, h3, ?_, rfl, ?_⟩
  · rw [h5]
    simp [assembleUnit]
  · intro k v
    rw [objectFilter, List.mem_filter]
    constructor
    · rintro ⟨hm, hc⟩
      simp only at hc
      exact ⟨hm, mem_constructorsNeedingArgs.mp (contains_iff_mem.mp hc)⟩
    · rintro ⟨hm, p, hp, hn, ha⟩
      refine ⟨hm, ?_⟩
      simp only
      exact contains_iff_mem.mpr (mem_constructorsNeedingArgs.mpr ⟨p, hp, hn, ha⟩)

/-- Witness for C8 at the demo fixture. -/
theorem ctor_args_filtering_witness :
    ∃ si target flat parents mock,
      lookup demoSources "Token.sol" = some si ∧
      lookup si.contracts "Token" = some target ∧
      flattenContract target (mkResolve si "Token.sol") (flattenFuel target si) =
        Except.ok (flat, parents) ∧
      SourceMember.contractDefinition mock ∈ demoUnit.children ∧
      mock.subNodes.head? = some (makeConstructor (objectFilter
        demoOptions.constructors
        (fun key _ => (constructorsNeedingArgs parents).contains key))) ∧
      (∀ k v, ((k, v) ∈ objectFilter demoOptions.constructors
          (fun key _ => (constructorsNeedingArgs parents).contains key)) ↔
        (((k, v) ∈ demoOptions.constructors) ∧
          ∃ p, p ∈ parents ∧ p.name = k ∧
            p.subNodes.any isArgConstructor = true)) :=
  ctor_args_filtering (by rfl)

end ContractMocker
